import Mathlib

/-!
Verification development for the `utop` system monitor (C sources
`src/main.c` and `utop.c`).  The C code is shallowly embedded: C
`unsigned long long` arithmetic is modelled as `Nat` with explicit
wrap-around (`% 2 ^ 64`), C `double` values produced by exact integer
conversions and single divisions are modelled as exact rationals `ℚ`,
fallible readers take `Option`-valued inputs (the parsed content of the
kernel file, `none` when the file is unavailable), and `qsort_r` is
modelled as a comparator-respecting sort (`List.insertionSort`).
-/

namespace Utop

/-- `2 ^ 64`, the modulus of C `unsigned long long` arithmetic. -/
def U64 : Nat := 2 ^ 64

/-- C unsigned 64-bit subtraction `a - b` (wrap-around, for `a b < U64`). -/
def sub64 (a b : Nat) : Nat := (a + U64 - b) % U64

theorem sub64_of_le {a b : Nat} (hba : b ≤ a) (ha : a < U64) :
    sub64 a b = a - b := by
  unfold sub64
  have h1 : a + U64 - b = (a - b) + U64 := by omega
  rw [h1, Nat.add_mod_right, Nat.mod_eq_of_lt (by omega)]

theorem sub64_self (a : Nat) (ha : a < U64) : sub64 a a = 0 := by
  rw [sub64_of_le (Nat.le_refl a) ha, Nat.sub_self]

-- --- CPU totals (struct CpuTimes, main.c:19-21) ---

structure CpuTimes where
  user : Nat
  nice : Nat
  system : Nat
  idle : Nat
  iowait : Nat
  irq : Nat
  softirq : Nat
  steal : Nat
deriving DecidableEq, Repr

/-- The all-zero record `CpuTimes t = {0}` (`read_cpu_times`, main.c:292). -/
def CpuTimes.zero : CpuTimes := ⟨0, 0, 0, 0, 0, 0, 0, 0⟩

/-- Every field is a machine `unsigned long long`, hence `< 2 ^ 64`. -/
def CpuTimes.wf (t : CpuTimes) : Prop :=
  t.user < U64 ∧ t.nice < U64 ∧ t.system < U64 ∧ t.idle < U64 ∧
  t.iowait < U64 ∧ t.irq < U64 ∧ t.softirq < U64 ∧ t.steal < U64

instance (t : CpuTimes) : Decidable t.wf := by
  unfold CpuTimes.wf; infer_instance

/-- Sum of the eight counters in u64 arithmetic (main.c:802-808). -/
def cpuTotal (t : CpuTimes) : Nat :=
  (t.user + t.nice + t.system + t.idle + t.iowait + t.irq + t.softirq +
    t.steal) % U64

/-- `idle + iowait` in u64 arithmetic (main.c:810-811). -/
def idleSum (t : CpuTimes) : Nat := (t.idle + t.iowait) % U64

/-- `total_delta` of `sample` (main.c:809). -/
def totalDelta (prev cur : CpuTimes) : Nat := sub64 (cpuTotal cur) (cpuTotal prev)

/-- `idle_delta` of `sample` (main.c:810-811). -/
def idleDelta (prev cur : CpuTimes) : Nat := sub64 (idleSum cur) (idleSum prev)

/-- `*out_cpu` of `sample` (main.c:813-815): the overall CPU percentage. -/
def overallCpu (prev cur : CpuTimes) : ℚ :=
  let td := totalDelta prev cur
  let idl := idleDelta prev cur
  if td > 0 then ((sub64 td idl : Nat) : ℚ) * 100 / (td : ℚ) else 0

/-- `read_cpu_times` (main.c:291-304): zeros when `/proc/stat` is missing. -/
def read_cpu_times (input : Option CpuTimes) : CpuTimes :=
  input.getD CpuTimes.zero

-- --- Memory (read_memory, main.c:306-336) ---

/-- The six kilobyte values parsed from `/proc/meminfo`; a field whose
line is missing stays at its initialisation value `0` (main.c:312-313). -/
structure MemInfo where
  total : Nat
  avail : Nat
  s_total : Nat
  s_free : Nat
  cma_total : Nat
  cma_free : Nat
deriving DecidableEq, Repr

structure MemorySnapshot where
  used_bytes : Nat
  total_bytes : Nat
  swap_used_bytes : Nat
  swap_total_bytes : Nat
  cma_used_bytes : Nat
  cma_total_bytes : Nat
deriving DecidableEq, Repr

def MemorySnapshot.zero : MemorySnapshot := ⟨0, 0, 0, 0, 0, 0⟩

/-- `read_memory` (main.c:306-336): zeros when `/proc/meminfo` is missing,
otherwise each kB value scaled by 1024 with u64 arithmetic. -/
def read_memory (input : Option MemInfo) : MemorySnapshot :=
  match input with
  | none => MemorySnapshot.zero
  | some m =>
    { total_bytes := m.total * 1024 % U64
      used_bytes := sub64 m.total m.avail * 1024 % U64
      swap_total_bytes := m.s_total * 1024 % U64
      swap_used_bytes := sub64 m.s_total m.s_free * 1024 % U64
      cma_total_bytes := m.cma_total * 1024 % U64
      cma_used_bytes := sub64 m.cma_total m.cma_free * 1024 % U64 }

/-- `read_cpu_count` (main.c:338-350): `input` is the number of `cpuN`
lines of `/proc/stat`, `none` when the file is missing; minimum 1. -/
def read_cpu_count (input : Option Nat) : Nat :=
  match input with
  | none => 1
  | some c => if c > 0 then c else 1

-- --- Network (read_network, main.c:725-787) ---

/-- A parsed data line of `/proc/net/dev` (iface, rx bytes, tx bytes);
lines that fail the `sscanf` pattern are skipped before this model. -/
structure NetEntry where
  iface : String
  rx : Nat
  tx : Nat
deriving DecidableEq, Repr

/-- struct NetStats (main.c:52-55). -/
structure NetStats where
  iface : String
  rx : Nat
  tx : Nat
deriving DecidableEq, Repr

/-- struct NetworkSnapshot (main.c:47-50); rates are C doubles,
modelled as exact rationals. -/
structure NetworkSnapshot where
  iface : String
  rx_rate : ℚ
  tx_rate : ℚ
deriving DecidableEq, Repr

/-- `NetworkSnapshot best = {"-", 0, 0}` (main.c:726). -/
def NetworkSnapshot.init : NetworkSnapshot := ⟨"-", 0, 0⟩

/-- Prior-counter lookup (main.c:763-770): first matching interface,
defaulting to the current counters when absent. -/
def netPrevFor (prev : List NetStats) (e : NetEntry) : Nat × Nat :=
  match prev.find? (fun p => p.iface == e.iface) with
  | some p => (p.rx, p.tx)
  | none => (e.rx, e.tx)

/-- The rate computation of the loop body (main.c:772-773):
`(cur >= prev ? cur - prev : 0) / elapsed` for rx and tx. -/
def netRates (prev : List NetStats) (elapsed : ℚ) (e : NetEntry) : ℚ × ℚ :=
  let pr := netPrevFor prev e
  ((if pr.1 ≤ e.rx then ((e.rx - pr.1 : Nat) : ℚ) else 0) / elapsed,
   (if pr.2 ≤ e.tx then ((e.tx - pr.2 : Nat) : ℚ) else 0) / elapsed)

/-- The cumulative `rx + tx` of one interface, computed in u64
arithmetic as at main.c:774 (`rx` and `tx` are `unsigned long long`, so
the sum wraps modulo `2 ^ 64`). -/
def netSum64 (e : NetEntry) : Nat := (e.rx + e.tx) % U64

/-- One iteration of the `/proc/net/dev` loop (main.c:738-780), acting on
the accumulator `(best, best_total, cur_net)`; the `rx + tx` comparison
and the stored `best_total` use the u64-wrapped sum. -/
def netStep (prev : List NetStats) (elapsed : ℚ)
    (acc : NetworkSnapshot × Nat × List NetStats) (e : NetEntry) :
    NetworkSnapshot × Nat × List NetStats :=
  if e.iface == "lo" then acc
  else
    let cur := acc.2.2 ++ [⟨e.iface, e.rx, e.tx⟩]
    let r := netRates prev elapsed e
    if netSum64 e > acc.2.1 then (⟨e.iface, r.1, r.2⟩, netSum64 e, cur)
    else (acc.1, acc.2.1, cur)

/-- `read_network` (main.c:725-787).  `input` is the list of parsed data
lines, `none` when `/proc/net/dev` is missing (early return, previous
table untouched).  Returns the snapshot and the replaced table. -/
def read_network (prevTab : List NetStats) (elapsed : ℚ) :
    Option (List NetEntry) → NetworkSnapshot × List NetStats
  | none => (NetworkSnapshot.init, prevTab)
  | some lines =>
    ((lines.foldl (netStep prevTab elapsed) (NetworkSnapshot.init, 0, [])).1,
     (lines.foldl (netStep prevTab elapsed) (NetworkSnapshot.init, 0, [])).2.2)

-- --- GPU snapshot and the V3D queue table (main.c:29-35, 94-98, 438-485) ---

/-- struct GpuSnapshot (main.c:29-35); doubles modelled as rationals. -/
structure GpuSnapshot where
  name : String
  usage : ℚ
  mem_used : Nat
  mem_total : Nat
  temp : ℚ
  has_usage : Bool
  has_mem : Bool
  has_temp : Bool
deriving DecidableEq, Repr

/-- struct V3dStats (main.c:94-98): one retained queue entry. -/
structure V3dStats where
  queue : String
  last_ts : Nat
  last_rt : Nat
deriving DecidableEq, Repr

/-- A parsed `gpu_stats` data line `(queue_name, timestamp, _, runtime)`
(main.c:455-457); lines failing the `sscanf` pattern are skipped. -/
structure V3dRow where
  queue : String
  ts : Nat
  rt : Nat
deriving DecidableEq, Repr

/-- First entry of the queue table matching `q` (main.c:459-464). -/
def v3dLookup (l : List V3dStats) (q : String) : Option V3dStats :=
  l.find? (fun e => e.queue == q)

/-- Overwrite `last_ts`/`last_rt` of the first entry matching `q`
(main.c:467-469, 478-479). -/
def v3dUpdate (l : List V3dStats) (q : String) (ts rt : Nat) : List V3dStats :=
  match l with
  | [] => []
  | e :: t =>
    if e.queue == q then { e with last_ts := ts, last_rt := rt } :: t
    else e :: v3dUpdate t q ts rt

/-- Accumulator of the `gpu_stats` loop: the queue table together with
the `usage`/`has_usage` fields of the snapshot under construction. -/
structure V3dAcc where
  stats : List V3dStats
  usage : ℚ
  has_usage : Bool
deriving DecidableEq, Repr

/-- One iteration of the `gpu_stats` loop (main.c:454-481). -/
def v3dStep (acc : V3dAcc) (r : V3dRow) : V3dAcc :=
  match v3dLookup acc.stats r.queue with
  | none =>
    if acc.stats.length < 16 then
      { acc with stats := acc.stats ++ [⟨r.queue, r.ts, r.rt⟩] }
    else acc
  | some e =>
    if e.last_ts < r.ts then
      let q_u : ℚ :=
        ((sub64 r.rt e.last_rt : Nat) : ℚ) * 100 / ((r.ts - e.last_ts : Nat) : ℚ)
      { stats := v3dUpdate acc.stats r.queue r.ts r.rt
        usage := if acc.usage < q_u then q_u else acc.usage
        has_usage := true }
    else { acc with stats := v3dUpdate acc.stats r.queue r.ts r.rt }

/-- The whole `gpu_stats` loop over the parsed data lines. -/
def v3dProcess (acc : V3dAcc) (rows : List V3dRow) : V3dAcc :=
  rows.foldl v3dStep acc

/-- The per-queue utilization a row contributes against the table `st`:
`(runtime_delta * 100) / timestamp_delta`, defined only when the queue
is already known and its timestamp advanced (main.c:470-476). -/
def utilOfRow (st : List V3dStats) (r : V3dRow) : Option ℚ :=
  match v3dLookup st r.queue with
  | some e =>
    if e.last_ts < r.ts then
      some (((sub64 r.rt e.last_rt : Nat) : ℚ) * 100 /
        ((r.ts - e.last_ts : Nat) : ℚ))
    else none
  | none => none

-- --- GPU probe cache (main.c:352-364) ---

/-- struct timeval as used by `gettimeofday`. -/
structure Timeval where
  sec : Int
  usec : Int
deriving DecidableEq, Repr

/-- `ms_diff` (main.c:359-360): C `long long` arithmetic; `/` truncates
toward zero, which is `Int.tdiv`. -/
def msDiff (now last : Timeval) : Int :=
  (now.sec - last.sec) * 1000 + Int.tdiv (now.usec - last.usec) 1000

/-- Exact difference of two timevals in microseconds. -/
def usDiff (now last : Timeval) : Int :=
  (now.sec - last.sec) * 1000000 + (now.usec - last.usec)

/-- The static cache of `read_gpu`: `cached_gpu` and `last_gpu_read`. -/
structure GpuCache where
  cached : GpuSnapshot
  last : Timeval
deriving DecidableEq, Repr

/-- The caching shell of `read_gpu` (main.c:356-364): on a hit the cached
snapshot is returned and no backend runs; otherwise the probe cascade
(abstracted as `probe`) runs, and every return path stores its result in
`cached_gpu` with `last_gpu_read = now`.  The `Bool` records whether a
backend was consulted. -/
def read_gpu_cached (st : GpuCache) (now : Timeval) (probe : GpuSnapshot) :
    GpuSnapshot × GpuCache × Bool :=
  if msDiff now st.last < 800 ∧ st.last.sec ≠ 0 then (st.cached, st, false)
  else (probe, ⟨probe, now⟩, true)

-- --- human_bytes (main.c:123-138) ---

/-- Rounding of `printf` float formatting (round half to even), applied
to the exact quotient `num / den` with `den > 0`. -/
def roundHalfEvenN (num den : Nat) : Nat :=
  let q := num / den
  let r := num % den
  if 2 * r < den then q
  else if den < 2 * r then q + 1
  else if q % 2 = 0 then q else q + 1

/-- `"%.1f"` of the exact quotient `num / den`. -/
def fmt1N (num den : Nat) : String :=
  let n := roundHalfEvenN (num * 10) den
  Nat.repr (n / 10) ++ "." ++ Nat.repr (n % 10)

/-- `"%.2f"` of the exact quotient `num / den`. -/
def fmt2N (num den : Nat) : String :=
  let n := roundHalfEvenN (num * 100) den
  Nat.repr (n / 100) ++ "." ++ (if n % 100 < 10 then "0" else "") ++
    Nat.repr (n % 100)

/-- `human_bytes` (main.c:123-138).  The C code compares and divides the
double `v = (double)bytes`; that conversion is exact below `2 ^ 53`, the
divisors are powers of two (so the divisions are exact in binary floating
point), and for every u64 input the branch chosen by the double
comparison agrees with the integer-threshold comparison.  The quotient is
therefore modelled as the exact rational `bytes / divisor`, formatted
with printf rounding. -/
def human_bytes (bytes : Nat) : String :=
  if 1024 * 1024 * 1024 ≤ bytes then fmt2N bytes (1024 * 1024 * 1024) ++ " GiB"
  else if 1024 * 1024 ≤ bytes then fmt1N bytes (1024 * 1024) ++ " MiB"
  else if 1024 ≤ bytes then fmt1N bytes 1024 ++ " KiB"
  else Nat.repr bytes ++ " B"

-- --- Processes and sorting (main.c:37-45, 707-723) ---

/-- struct ProcessInfo (main.c:37-43). -/
structure ProcessInfo where
  pid : Nat
  name : List Char
  cpu_percent : ℚ
  mem_bytes : Nat
  threads : Nat
deriving DecidableEq, Repr

inductive SortMode
  | SORT_CPU
  | SORT_MEM
deriving DecidableEq, Repr

/-- `compare_procs` (main.c:707-723); C argument order `(a, b)`,
negative result means `a` sorts before `b`. -/
def compare_procs (mode : SortMode) (pa pb : ProcessInfo) : Int :=
  match mode with
  | .SORT_CPU =>
    if pa.cpu_percent < pb.cpu_percent then 1
    else if pb.cpu_percent < pa.cpu_percent then -1
    else if pa.mem_bytes < pb.mem_bytes then 1 else -1
  | .SORT_MEM =>
    if pa.mem_bytes < pb.mem_bytes then 1
    else if pb.mem_bytes < pa.mem_bytes then -1
    else if pa.cpu_percent < pb.cpu_percent then 1 else -1

/-- "`a` sorts no later than `b`" under `compare_procs`. -/
def procLe (mode : SortMode) (a b : ProcessInfo) : Prop :=
  compare_procs mode a b ≤ 0

instance (mode : SortMode) : DecidableRel (procLe mode) := fun a b => by
  unfold procLe; infer_instance

theorem procLe_cpu_iff (a b : ProcessInfo) :
    procLe .SORT_CPU a b ↔
      b.cpu_percent < a.cpu_percent ∨
        (a.cpu_percent = b.cpu_percent ∧ b.mem_bytes ≤ a.mem_bytes) := by
  unfold procLe compare_procs
  rcases lt_trichotomy a.cpu_percent b.cpu_percent with h | h | h
  · simp [h, not_lt.mpr (le_of_lt h), h.ne, h.ne']
  · rcases lt_or_le a.mem_bytes b.mem_bytes with hm | hm
    · simp [h, lt_irrefl, hm, not_le.mpr hm]
    · simp [h, lt_irrefl, not_lt.mpr hm, hm]
  · simp [h, not_lt.mpr (le_of_lt h), h.ne, h.ne']

theorem procLe_mem_iff (a b : ProcessInfo) :
    procLe .SORT_MEM a b ↔
      b.mem_bytes < a.mem_bytes ∨
        (a.mem_bytes = b.mem_bytes ∧ b.cpu_percent ≤ a.cpu_percent) := by
  unfold procLe compare_procs
  rcases lt_trichotomy a.mem_bytes b.mem_bytes with h | h | h
  · simp [h, not_lt.mpr (le_of_lt h), h.ne, h.ne']
  · rcases lt_or_le a.cpu_percent b.cpu_percent with hm | hm
    · simp [h, lt_irrefl, hm, not_le.mpr hm]
    · simp [h, lt_irrefl, not_lt.mpr hm, hm]
  · simp [h, not_lt.mpr (le_of_lt h), h.ne, h.ne']

instance (mode : SortMode) : IsTotal ProcessInfo (procLe mode) where
  total a b := by
    cases mode
    · rw [procLe_cpu_iff, procLe_cpu_iff]
      rcases lt_trichotomy a.cpu_percent b.cpu_percent with h | h | h
      · exact Or.inr (Or.inl h)
      · rcases le_total a.mem_bytes b.mem_bytes with hm | hm
        · exact Or.inr (Or.inr ⟨h.symm, hm⟩)
        · exact Or.inl (Or.inr ⟨h, hm⟩)
      · exact Or.inl (Or.inl h)
    · rw [procLe_mem_iff, procLe_mem_iff]
      rcases lt_trichotomy a.mem_bytes b.mem_bytes with h | h | h
      · exact Or.inr (Or.inl h)
      · rcases le_total a.cpu_percent b.cpu_percent with hm | hm
        · exact Or.inr (Or.inr ⟨h.symm, hm⟩)
        · exact Or.inl (Or.inr ⟨h, hm⟩)
      · exact Or.inl (Or.inl h)

instance (mode : SortMode) : IsTrans ProcessInfo (procLe mode) where
  trans a b c hab hbc := by
    cases mode
    · rw [procLe_cpu_iff] at *
      rcases hab with h1 | ⟨h1, m1⟩ <;> rcases hbc with h2 | ⟨h2, m2⟩
      · exact Or.inl (h2.trans h1)
      · exact Or.inl (h2 ▸ h1)
      · exact Or.inl (h1 ▸ h2)
      · exact Or.inr ⟨h1.trans h2, m2.trans m1⟩
    · rw [procLe_mem_iff] at *
      rcases hab with h1 | ⟨h1, m1⟩ <;> rcases hbc with h2 | ⟨h2, m2⟩
      · exact Or.inl (h2.trans h1)
      · exact Or.inl (h2 ▸ h1)
      · exact Or.inl (h1 ▸ h2)
      · exact Or.inr ⟨h1.trans h2, m2.trans m1⟩

/-- `qsort_r(procs, count, sizeof, compare_procs, &sort)` (main.c:908),
modelled as a comparator-respecting sort. -/
def sortProcs (mode : SortMode) (l : List ProcessInfo) : List ProcessInfo :=
  List.insertionSort (procLe mode) l

-- --- Per-pid ticks and the process loop of sample (main.c:821-911) ---

/-- struct PidTicks (main.c:89-92). -/
structure PidTicks where
  ticks : Nat
  pid : Nat
deriving DecidableEq, Repr

/-- The previous-tick lookup (main.c:886-892): first matching pid. -/
def pidLookup (l : List PidTicks) (pid : Nat) : Option Nat :=
  (l.find? (fun e => e.pid == pid)).map (fun e => e.ticks)

/-- `prev_t`, defaulting to 0 when the pid is absent (main.c:886). -/
def prevTicksFor (l : List PidTicks) (pid : Nat) : Nat :=
  (pidLookup l pid).getD 0

/-- A successfully parsed `/proc/<pid>/stat` record (main.c:831-869);
entries whose stat file cannot be read or parsed are skipped before this
model. -/
structure ProcEntry where
  pid : Nat
  name : List Char
  utime : Nat
  stime : Nat
  threads : Nat
  rss : Nat
deriving DecidableEq, Repr

/-- `total_ticks = utime + stime` in u64 arithmetic (main.c:872). -/
def entryTicks (e : ProcEntry) : Nat := (e.utime + e.stime) % U64

/-- `cpu_p` (main.c:894-896). -/
def procCpuPercent (prev : List PidTicks) (td : Nat) (e : ProcEntry) : ℚ :=
  if td > 0 then
    ((sub64 (entryTicks e) (prevTicksFor prev e.pid) : Nat) : ℚ) * 100 / (td : ℚ)
  else 0

/-- Does `need` occur at the head of `hay`? -/
def leadMatch : List Char → List Char → Bool
  | [], _ => true
  | _ :: _, [] => false
  | n :: ns, h :: hs => n == h && leadMatch ns hs

/-- `strstr`-style containment of `need` in `hay`. -/
def containsSub : List Char → List Char → Bool
  | hay, need =>
    if leadMatch need hay then true
    else
      match hay with
      | [] => false
      | _ :: t => containsSub t need

/-- ASCII lowercasing, as `strcasestr` compares case-insensitively. -/
def lowerChars (l : List Char) : List Char := l.map Char.toLower

/-- The filter test (main.c:856-861): case-insensitive substring of the
name, or substring of the decimal pid; empty filter admits everything. -/
def passFilter (filter : List Char) (e : ProcEntry) : Bool :=
  if filter.isEmpty then true
  else containsSub (lowerChars e.name) (lowerChars filter) ||
    containsSub (Nat.repr e.pid).data filter

/-- Construction of one ProcessInfo row (main.c:894-899). -/
def toProc (prev : List PidTicks) (td : Nat) (page_size : Nat)
    (e : ProcEntry) : ProcessInfo :=
  { pid := e.pid
    name := e.name
    cpu_percent := procCpuPercent prev td e
    mem_bytes := e.rss * page_size % U64
    threads := e.threads }

-- --- The Sampler (main.c:100-110, 789-911) ---

/-- The persistent sampler state touched by `sample` (main.c:100-110);
the V3D table and the GPU cache are modelled separately (`v3dProcess`,
`read_gpu_cached`) and the wall clock enters as `elapsed`. -/
structure Sampler where
  prev_cpu : CpuTimes
  prev_ticks : List PidTicks
  prev_net : List NetStats
  page_size : Nat
deriving Repr

/-- The kernel-file contents visible to one `sample` call; `none` means
the corresponding file or directory could not be opened.  The GPU probe
cascade is abstracted as the snapshot it would produce. -/
structure Env where
  cpu : Option CpuTimes
  mem : Option MemInfo
  net : Option (List NetEntry)
  gpu : GpuSnapshot
  cpuN : Option Nat
  procs : Option (List ProcEntry)

/-- The out-parameters of `sample` (main.c:789-792).  `procs = none`
records that the early return at main.c:821-823 left `*out_procs` and
`*out_count` unwritten. -/
structure SampleOut where
  cpu : ℚ
  mem : MemorySnapshot
  net : NetworkSnapshot
  gpu : GpuSnapshot
  cpus : Nat
  procs : Option (List ProcessInfo)

/-- `sample` (main.c:789-911). -/
def sample (s : Sampler) (sort : SortMode) (filter : List Char)
    (elapsed : ℚ) (env : Env) : SampleOut × Sampler :=
  let cur_cpu := read_cpu_times env.cpu
  let td := totalDelta s.prev_cpu cur_cpu
  let out_cpu := overallCpu s.prev_cpu cur_cpu
  let out_mem := read_memory env.mem
  let netr := read_network s.prev_net elapsed env.net
  let out_cpus := read_cpu_count env.cpuN
  match env.procs with
  | none =>
    ({ cpu := out_cpu, mem := out_mem, net := netr.1, gpu := env.gpu,
       cpus := out_cpus, procs := none },
     { s with prev_net := netr.2 })
  | some entries =>
    let kept := entries.filter (passFilter filter)
    let cur_ticks := kept.map (fun e => PidTicks.mk (entryTicks e) e.pid)
    let rows := kept.map (toProc s.prev_ticks td s.page_size)
    ({ cpu := out_cpu, mem := out_mem, net := netr.1, gpu := env.gpu,
       cpus := out_cpus, procs := some (sortProcs sort rows) },
     { s with prev_ticks := cur_ticks, prev_cpu := cur_cpu,
              prev_net := netr.2 })

-- --- Input decoding and dispatch (main.c:915-962, 1127-1206) ---

inductive KeyType
  | K_NONE
  | K_QUIT
  | K_UP
  | K_DOWN
  | K_LEFT
  | K_RIGHT
  | K_BACKSPACE
  | K_ENTER
  | K_ESC
  | K_CHAR
deriving DecidableEq, Repr

structure Key where
  type : KeyType
  ch : Char
deriving DecidableEq, Repr

/-- `isprint` in the C locale: 0x20 to 0x7E. -/
def isPrintByte (b : Nat) : Bool := 32 ≤ b && b ≤ 126

/-- `read_key` (main.c:933-962); `buf` is the byte sequence the `read`
call returned (at most 16 bytes), empty for `n <= 0`. -/
def read_key (buf : List Nat) : Key :=
  match buf with
  | [] => ⟨.K_NONE, Char.ofNat 0⟩
  | b0 :: rest =>
    if b0 == 3 then ⟨.K_QUIT, Char.ofNat 0⟩
    else
      match rest with
      | [] =>
        if b0 == 27 then ⟨.K_ESC, Char.ofNat 0⟩
        else if b0 == 127 || b0 == 8 then ⟨.K_BACKSPACE, Char.ofNat 0⟩
        else if b0 == 10 || b0 == 13 then ⟨.K_ENTER, Char.ofNat 0⟩
        else if isPrintByte b0 then ⟨.K_CHAR, Char.ofNat b0⟩
        else ⟨.K_NONE, Char.ofNat 0⟩
      | [_] => ⟨.K_NONE, Char.ofNat 0⟩
      | b1 :: b2 :: _ =>
        if b0 == 27 && b1 == 91 then
          if b2 == 65 then ⟨.K_UP, Char.ofNat 0⟩
          else if b2 == 66 then ⟨.K_DOWN, Char.ofNat 0⟩
          else if b2 == 67 then ⟨.K_RIGHT, Char.ofNat 0⟩
          else if b2 == 68 then ⟨.K_LEFT, Char.ofNat 0⟩
          else ⟨.K_NONE, Char.ofNat 0⟩
        else ⟨.K_NONE, Char.ofNat 0⟩

/-- The interactive state mutated by the key-dispatch loop of `main`. -/
structure UiState where
  is_search : Bool
  filter : List Char
  selection : Nat
  sort : SortMode
  needs_sample : Bool
  needs_render : Bool
deriving DecidableEq, Repr

/-- Result of dispatching one key: continue with a new state, or leave
`main` with an exit code after `restore_terminal` (the `Bool`). -/
inductive StepOut
  | cont (st : UiState)
  | exit (code : Nat) (restored : Bool)
deriving DecidableEq, Repr

/-- The per-key dispatch of the event loop (main.c:1130-1205). -/
def dispatchKey (st : UiState) (k : Key) : StepOut :=
  if k.type = .K_QUIT then .exit 0 true
  else if st.is_search then
    if k.type = .K_ESC ∨ k.type = .K_ENTER then
      .cont { st with is_search := false, needs_render := true }
    else if k.type = .K_BACKSPACE then
      if 0 < st.filter.length then
        .cont { st with filter := st.filter.dropLast, selection := 0,
                        needs_sample := true }
      else .cont { st with is_search := false, needs_render := true }
    else if k.type = .K_CHAR then
      if st.filter.length < 63 then
        .cont { st with filter := st.filter ++ [k.ch], selection := 0,
                        needs_sample := true }
      else .cont st
    else .cont st
  else
    if k.type = .K_UP then
      .cont { st with selection := st.selection - 1, needs_render := true }
    else if k.type = .K_DOWN then
      .cont { st with selection := st.selection + 1, needs_render := true }
    else if k.type = .K_LEFT then
      .cont { st with sort := .SORT_CPU, needs_sample := true }
    else if k.type = .K_RIGHT then
      .cont { st with sort := .SORT_MEM, needs_sample := true }
    else if k.type = .K_ESC then
      if 0 < st.filter.length then
        .cont { st with filter := [], selection := 0, needs_sample := true }
      else .cont st
    else if k.type = .K_CHAR then
      if k.ch = 'q' then .exit 0 true
      else if k.ch = 'j' then
        .cont { st with selection := st.selection + 1, needs_render := true }
      else if k.ch = 'k' then
        .cont { st with selection := st.selection - 1, needs_render := true }
      else if k.ch = 'h' then
        .cont { st with sort := .SORT_CPU, needs_sample := true }
      else if k.ch = 'l' then
        .cont { st with sort := .SORT_MEM, needs_sample := true }
      else if k.ch = '/' then
        .cont { st with is_search := true, filter := [], needs_render := true }
      else .cont st
    else .cont st

-- ===================== Shared helper lemmas =====================

theorem U64_pos : 0 < U64 := by unfold U64; norm_num

theorem cpuTotal_lt (t : CpuTimes) : cpuTotal t < U64 :=
  Nat.mod_lt _ U64_pos

theorem idleSum_lt (t : CpuTimes) : idleSum t < U64 :=
  Nat.mod_lt _ U64_pos

theorem sub64_zero_right {a : Nat} (ha : a < U64) : sub64 a 0 = a := by
  unfold sub64
  rw [Nat.sub_zero, Nat.add_mod_right, Nat.mod_eq_of_lt ha]

theorem sub64_of_lt {a b : Nat} (hab : a < b) (hb : b < U64) :
    sub64 a b = a + U64 - b ∧ 0 < a + U64 - b ∧ a + U64 - b < U64 := by
  unfold sub64
  refine ⟨?_, by omega, by omega⟩
  rw [Nat.mod_eq_of_lt (by omega)]

-- ===================== C1 =====================

/-- C1, counterexample: at the explicit snapshot pair
`prev = (user 100, rest 0)`, `cur = (user 50, rest 0)` the `user` counter
has reset (`cur.user < prev.user`), yet `sample`'s overall CPU percent is
`100`, not `0`: the deltas are u64 wrap-around subtractions, not
`max(0, cur - prev)`. -/
theorem overallCpu_reset_counterexample :
    (CpuTimes.mk 50 0 0 0 0 0 0 0).user < (CpuTimes.mk 100 0 0 0 0 0 0 0).user ∧
      overallCpu (CpuTimes.mk 100 0 0 0 0 0 0 0) (CpuTimes.mk 50 0 0 0 0 0 0 0) =
        100 := by
  constructor
  · norm_num
  · norm_num [overallCpu, totalDelta, idleDelta, cpuTotal, idleSum, sub64, U64]

/-- C1 (amended): deltas are computed by u64 wrap-around subtraction, not
`max(0, cur - prev)`.  Whenever the eight-counter total regresses while the
idle and iowait counters are unchanged (a reset confined to non-idle
counters), the reported overall CPU percent is `100`, not `0`. -/
theorem overallCpu_reset_is_100 (prev cur : CpuTimes)
    (hidle : cur.idle = prev.idle) (hiow : cur.iowait = prev.iowait)
    (hlt : cpuTotal cur < cpuTotal prev) :
    overallCpu prev cur = 100 := by
  have hp : cpuTotal prev < U64 := cpuTotal_lt prev
  obtain ⟨htd, htdpos, htdlt⟩ := sub64_of_lt hlt hp
  have hid : idleDelta prev cur = 0 := by
    unfold idleDelta idleSum
    rw [hidle, hiow]
    exact sub64_self _ (Nat.mod_lt _ U64_pos)
  unfold overallCpu totalDelta
  rw [hid, htd, if_pos htdpos, sub64_zero_right htdlt]
  have hne : ((cpuTotal cur + U64 - cpuTotal prev : Nat) : ℚ) ≠ 0 := by
    exact_mod_cast Nat.pos_iff_ne_zero.mp htdpos
  rw [div_eq_iff hne]
  ring

theorem overallCpu_reset_is_100_witness :
    (CpuTimes.mk 50 0 0 3 4 0 0 0).idle = (CpuTimes.mk 100 0 0 3 4 0 0 0).idle ∧
    (CpuTimes.mk 50 0 0 3 4 0 0 0).iowait =
      (CpuTimes.mk 100 0 0 3 4 0 0 0).iowait ∧
    cpuTotal (CpuTimes.mk 50 0 0 3 4 0 0 0) <
      cpuTotal (CpuTimes.mk 100 0 0 3 4 0 0 0) ∧
    overallCpu (CpuTimes.mk 100 0 0 3 4 0 0 0) (CpuTimes.mk 50 0 0 3 4 0 0 0) =
      100 :=
  ⟨rfl, rfl, by decide,
   overallCpu_reset_is_100 _ _ rfl rfl (by decide)⟩

-- ===================== C4 =====================

/-- C4, counterexample: every one of the eight counters is non-decreasing
from `prev = 0` to the explicit `cur` below, yet because the eight-counter
sum wraps past `2 ^ 64` the overall CPU percent is far above `100`. -/
theorem overallCpu_overflow_counterexample :
    CpuTimes.zero.user ≤ (CpuTimes.mk (2 ^ 63) (2 ^ 63 - 3) 0 5 0 0 0 0).user ∧
    CpuTimes.zero.nice ≤ (CpuTimes.mk (2 ^ 63) (2 ^ 63 - 3) 0 5 0 0 0 0).nice ∧
    CpuTimes.zero.system ≤ (CpuTimes.mk (2 ^ 63) (2 ^ 63 - 3) 0 5 0 0 0 0).system ∧
    CpuTimes.zero.idle ≤ (CpuTimes.mk (2 ^ 63) (2 ^ 63 - 3) 0 5 0 0 0 0).idle ∧
    CpuTimes.zero.iowait ≤ (CpuTimes.mk (2 ^ 63) (2 ^ 63 - 3) 0 5 0 0 0 0).iowait ∧
    CpuTimes.zero.irq ≤ (CpuTimes.mk (2 ^ 63) (2 ^ 63 - 3) 0 5 0 0 0 0).irq ∧
    CpuTimes.zero.softirq ≤ (CpuTimes.mk (2 ^ 63) (2 ^ 63 - 3) 0 5 0 0 0 0).softirq ∧
    CpuTimes.zero.steal ≤ (CpuTimes.mk (2 ^ 63) (2 ^ 63 - 3) 0 5 0 0 0 0).steal ∧
    100 < overallCpu CpuTimes.zero (CpuTimes.mk (2 ^ 63) (2 ^ 63 - 3) 0 5 0 0 0 0) := by
  refine ⟨by decide, by decide, by decide, by decide, by decide, by decide,
    by decide, by decide, ?_⟩
  norm_num [overallCpu, totalDelta, idleDelta, cpuTotal, idleSum, sub64, U64,
    CpuTimes.zero]

/-- C4 (amended): for two successive snapshots with every counter
non-decreasing *and the eight-counter sum not overflowing 64 bits*, the
overall CPU percent lies in `[0, 100]`. -/
theorem overallCpu_bounds_no_overflow (prev cur : CpuTimes)
    (h1 : prev.user ≤ cur.user) (h2 : prev.nice ≤ cur.nice)
    (h3 : prev.system ≤ cur.system) (h4 : prev.idle ≤ cur.idle)
    (h5 : prev.iowait ≤ cur.iowait) (h6 : prev.irq ≤ cur.irq)
    (h7 : prev.softirq ≤ cur.softirq) (h8 : prev.steal ≤ cur.steal)
    (hs : cur.user + cur.nice + cur.system + cur.idle + cur.iowait +
      cur.irq + cur.softirq + cur.steal < U64) :
    0 ≤ overallCpu prev cur ∧ overallCpu prev cur ≤ 100 := by
  have hps : prev.user + prev.nice + prev.system + prev.idle + prev.iowait +
      prev.irq + prev.softirq + prev.steal < U64 := by omega
  have hct : cpuTotal cur = cur.user + cur.nice + cur.system + cur.idle +
      cur.iowait + cur.irq + cur.softirq + cur.steal := Nat.mod_eq_of_lt hs
  have hcp : cpuTotal prev = prev.user + prev.nice + prev.system + prev.idle +
      prev.iowait + prev.irq + prev.softirq + prev.steal := Nat.mod_eq_of_lt hps
  have hit : idleSum cur = cur.idle + cur.iowait := Nat.mod_eq_of_lt (by omega)
  have hip : idleSum prev = prev.idle + prev.iowait := Nat.mod_eq_of_lt (by omega)
  have htd : totalDelta prev cur = cpuTotal cur - cpuTotal prev := by
    unfold totalDelta
    exact sub64_of_le (by omega) (cpuTotal_lt cur)
  have hi : idleDelta prev cur = idleSum cur - idleSum prev := by
    unfold idleDelta
    exact sub64_of_le (by omega) (idleSum_lt cur)
  have hle : idleDelta prev cur ≤ totalDelta prev cur := by
    rw [htd, hi, hct, hcp, hit, hip]; omega
  have htdlt : totalDelta prev cur < U64 := by
    rw [htd]; omega
  unfold overallCpu
  rcases Nat.eq_zero_or_pos (totalDelta prev cur) with hz | hpos
  · rw [if_neg (by omega)]
    norm_num
  · rw [if_pos hpos, sub64_of_le hle htdlt]
    have hc0 : (0 : ℚ) < ((totalDelta prev cur : Nat) : ℚ) := by
      exact_mod_cast hpos
    constructor
    · positivity
    · rw [div_le_iff₀ hc0]
      have hcle : ((totalDelta prev cur - idleDelta prev cur : Nat) : ℚ) ≤
          ((totalDelta prev cur : Nat) : ℚ) := by
        exact_mod_cast Nat.sub_le _ _
      nlinarith

theorem overallCpu_bounds_no_overflow_witness :
    ((CpuTimes.mk 100 0 100 800 0 0 0 0).user ≤
      (CpuTimes.mk 200 0 200 1000 0 0 0 0).user) ∧
    ((CpuTimes.mk 200 0 200 1000 0 0 0 0).user +
      (CpuTimes.mk 200 0 200 1000 0 0 0 0).nice +
      (CpuTimes.mk 200 0 200 1000 0 0 0 0).system +
      (CpuTimes.mk 200 0 200 1000 0 0 0 0).idle +
      (CpuTimes.mk 200 0 200 1000 0 0 0 0).iowait +
      (CpuTimes.mk 200 0 200 1000 0 0 0 0).irq +
      (CpuTimes.mk 200 0 200 1000 0 0 0 0).softirq +
      (CpuTimes.mk 200 0 200 1000 0 0 0 0).steal < U64) ∧
    (0 ≤ overallCpu (CpuTimes.mk 100 0 100 800 0 0 0 0)
        (CpuTimes.mk 200 0 200 1000 0 0 0 0) ∧
      overallCpu (CpuTimes.mk 100 0 100 800 0 0 0 0)
        (CpuTimes.mk 200 0 200 1000 0 0 0 0) ≤ 100) :=
  ⟨by decide, by decide,
   overallCpu_bounds_no_overflow _ _ (by decide) (by decide) (by decide)
     (by decide) (by decide) (by decide) (by decide) (by decide) (by decide)⟩

-- ===================== C2 =====================

/-- C2, counterexample: pid 7 is absent from the previous-tick table
(`pidLookup [] 7 = none`), yet with `total_delta = 400` its reported
`cpu_percent` is `50`, not `0`: the code substitutes `prev_t = 0` for an
unseen pid (main.c:886), so the claim's "`0` if the pid was not seen
previously" is false. -/
theorem sample_unseen_pid_counterexample :
    pidLookup [] 7 = none ∧
    (sample ⟨CpuTimes.zero, [], [], 4096⟩ .SORT_CPU [] 1
      ⟨some ⟨400, 0, 0, 0, 0, 0, 0, 0⟩, none, none,
        ⟨"GPU", 0, 0, 0, -1000, false, false, false⟩, none,
        some [⟨7, ['x'], 100, 100, 1, 1⟩]⟩).1.procs =
      some [⟨7, ['x'], 50, 4096, 1⟩] := by
  constructor
  · rfl
  · norm_num [sample, read_cpu_times, totalDelta, cpuTotal, sortProcs,
      List.insertionSort, toProc, procCpuPercent, prevTicksFor, pidLookup,
      entryTicks, sub64, U64, passFilter, CpuTimes.zero]

/-- C2 (amended): every process row produced by `sample` comes from an
enumerated entry passing the filter; its `cpu_percent` is `0` when
`total_delta = 0`, equals `(total_ticks - prev_ticks) * 100 / total_delta`
(u64 wrap-around difference) when the pid is in the previous-tick table,
and equals `total_ticks * 100 / total_delta` — prev treated as `0`, not a
zero percentage — when the pid was not seen previously. -/
theorem sample_cpu_percent_formula (s : Sampler) (sort : SortMode)
    (filter : List Char) (elapsed : ℚ) (env : Env)
    (entries : List ProcEntry) (henv : env.procs = some entries)
    (l : List ProcessInfo)
    (hl : (sample s sort filter elapsed env).1.procs = some l) :
    ∀ p ∈ l, ∃ e ∈ entries, passFilter filter e = true ∧
      p = toProc s.prev_ticks (totalDelta s.prev_cpu (read_cpu_times env.cpu))
        s.page_size e ∧
      (totalDelta s.prev_cpu (read_cpu_times env.cpu) = 0 → p.cpu_percent = 0) ∧
      (∀ v, pidLookup s.prev_ticks e.pid = some v →
        0 < totalDelta s.prev_cpu (read_cpu_times env.cpu) →
        p.cpu_percent = ((sub64 (entryTicks e) v : Nat) : ℚ) * 100 /
          ((totalDelta s.prev_cpu (read_cpu_times env.cpu) : Nat) : ℚ)) ∧
      (pidLookup s.prev_ticks e.pid = none →
        0 < totalDelta s.prev_cpu (read_cpu_times env.cpu) →
        p.cpu_percent = ((entryTicks e : Nat) : ℚ) * 100 /
          ((totalDelta s.prev_cpu (read_cpu_times env.cpu) : Nat) : ℚ)) := by
  intro p hp
  simp only [sample, henv] at hl
  set td := totalDelta s.prev_cpu (read_cpu_times env.cpu) with htd
  obtain rfl : sortProcs sort ((entries.filter (passFilter filter)).map
      (toProc s.prev_ticks td s.page_size)) = l := by
    simpa using hl
  have hmem := (List.perm_insertionSort (procLe sort) _).mem_iff.mp hp
  obtain ⟨e, hef, rfl⟩ := List.mem_map.mp hmem
  obtain ⟨hee, hpass⟩ := List.mem_filter.mp hef
  refine ⟨e, hee, hpass, rfl, ?_, ?_, ?_⟩
  · intro h0
    simp [toProc, procCpuPercent, h0]
  · intro v hv hpos
    simp only [toProc, procCpuPercent, prevTicksFor, hv, Option.getD_some,
      if_pos hpos]
  · intro hv hpos
    have hlt : entryTicks e < U64 := Nat.mod_lt _ U64_pos
    simp only [toProc, procCpuPercent, prevTicksFor, hv, Option.getD_none,
      if_pos hpos, sub64_zero_right hlt]

theorem sample_cpu_percent_formula_witness :
    ∃ e ∈ [ProcEntry.mk 7 ['x'] 700 500 1 1],
      passFilter [] e = true ∧
      ProcessInfo.mk 7 ['x'] 50 4096 1 =
        toProc [PidTicks.mk 1000 7] 400 4096 e ∧
      ((400 : Nat) = 0 → (ProcessInfo.mk 7 ['x'] 50 4096 1).cpu_percent = 0) ∧
      (∀ v, pidLookup [PidTicks.mk 1000 7] e.pid = some v →
        0 < (400 : Nat) →
        (ProcessInfo.mk 7 ['x'] 50 4096 1).cpu_percent =
          ((sub64 (entryTicks e) v : Nat) : ℚ) * 100 / ((400 : Nat) : ℚ)) ∧
      (pidLookup [PidTicks.mk 1000 7] e.pid = none → 0 < (400 : Nat) →
        (ProcessInfo.mk 7 ['x'] 50 4096 1).cpu_percent =
          ((entryTicks e : Nat) : ℚ) * 100 / ((400 : Nat) : ℚ)) := by
  have h := sample_cpu_percent_formula
    ⟨CpuTimes.zero, [PidTicks.mk 1000 7], [], 4096⟩ .SORT_CPU [] 1
    ⟨some ⟨400, 0, 0, 0, 0, 0, 0, 0⟩, none, none,
      ⟨"GPU", 0, 0, 0, -1000, false, false, false⟩, none,
      some [ProcEntry.mk 7 ['x'] 700 500 1 1]⟩
    [ProcEntry.mk 7 ['x'] 700 500 1 1] rfl
    [ProcessInfo.mk 7 ['x'] 50 4096 1]
    (by norm_num [sample, read_cpu_times, totalDelta, cpuTotal, sortProcs,
      List.insertionSort, toProc, procCpuPercent, prevTicksFor, pidLookup,
      List.find?, entryTicks, sub64, U64, passFilter, CpuTimes.zero])
    (ProcessInfo.mk 7 ['x'] 50 4096 1) (by simp)
  exact h

-- ===================== C3 =====================

/-- C3, counterexample: two processes with equal `cpu_percent` and equal
`mem_bytes` appear in the SORT_CPU output with pids in *descending* order
(5 before 3): `compare_procs` has no pid tie-break (it returns `-1` for
fully tied rows in either order), so the claimed "pid ascending" ordering
of full ties does not hold. -/
theorem sample_sort_tie_counterexample :
    (sample ⟨CpuTimes.zero, [], [], 4096⟩ .SORT_CPU [] 1
      ⟨some CpuTimes.zero, none, none,
        ⟨"GPU", 0, 0, 0, -1000, false, false, false⟩, none,
        some [⟨5, ['a'], 0, 0, 1, 2⟩, ⟨3, ['b'], 0, 0, 1, 2⟩]⟩).1.procs =
      some [⟨5, ['a'], 0, 8192, 1⟩, ⟨3, ['b'], 0, 8192, 1⟩] ∧
    (3 : Nat) < 5 := by
  constructor
  · norm_num [sample, read_cpu_times, totalDelta, cpuTotal, sortProcs,
      List.insertionSort, List.orderedInsert, toProc, procCpuPercent,
      prevTicksFor, pidLookup, entryTicks, sub64, U64, passFilter,
      CpuTimes.zero, procLe, compare_procs]
  · norm_num

/-- C3 (amended): every adjacent pair `(p, q)` of a process list returned
by `sample` satisfies, under SORT_CPU, `p.cpu_percent >= q.cpu_percent`
with `mem_bytes` descending on cpu ties, and symmetrically under SORT_MEM;
when both metrics tie the relative order is unspecified (there is no pid
tie-break in the comparator). -/
theorem sample_sorted_adjacent (s : Sampler) (sort : SortMode)
    (filter : List Char) (elapsed : ℚ) (env : Env) (l : List ProcessInfo)
    (hl : (sample s sort filter elapsed env).1.procs = some l) :
    l.Chain' (fun p q =>
      match sort with
      | .SORT_CPU => q.cpu_percent ≤ p.cpu_percent ∧
          (p.cpu_percent = q.cpu_percent → q.mem_bytes ≤ p.mem_bytes)
      | .SORT_MEM => q.mem_bytes ≤ p.mem_bytes ∧
          (p.mem_bytes = q.mem_bytes → q.cpu_percent ≤ p.cpu_percent)) := by
  cases henv : env.procs with
  | none => simp [sample, henv] at hl
  | some entries =>
    simp only [sample, henv] at hl
    have hleq : l = sortProcs sort ((entries.filter (passFilter filter)).map
        (toProc s.prev_ticks (totalDelta s.prev_cpu (read_cpu_times env.cpu))
          s.page_size)) := by
      have := hl.symm
      simpa using this
    subst hleq
    have hs : List.Sorted (procLe sort)
        (sortProcs sort ((entries.filter (passFilter filter)).map
          (toProc s.prev_ticks (totalDelta s.prev_cpu (read_cpu_times env.cpu))
            s.page_size))) :=
      List.sorted_insertionSort (procLe sort) _
    refine List.Pairwise.chain' (hs.imp ?_)
    intro a b hab
    cases sort with
    | SORT_CPU =>
      rw [procLe_cpu_iff] at hab
      rcases hab with h | ⟨h1, h2⟩
      · exact ⟨le_of_lt h, fun he => absurd (he ▸ h) (lt_irrefl _)⟩
      · exact ⟨le_of_eq h1.symm, fun _ => h2⟩
    | SORT_MEM =>
      rw [procLe_mem_iff] at hab
      rcases hab with h | ⟨h1, h2⟩
      · exact ⟨le_of_lt h, fun he => absurd (he ▸ h) (lt_irrefl _)⟩
      · exact ⟨le_of_eq h1.symm, fun _ => h2⟩

theorem sample_sorted_adjacent_witness :
    List.Chain' (fun p q => q.cpu_percent ≤ p.cpu_percent ∧
        (p.cpu_percent = q.cpu_percent → q.mem_bytes ≤ p.mem_bytes))
      [ProcessInfo.mk 2 ['a'] 100 4096 1, ProcessInfo.mk 9 ['b'] 0 4096 1] := by
  have h := sample_sorted_adjacent ⟨CpuTimes.zero, [], [], 4096⟩ .SORT_CPU [] 1
    ⟨some ⟨400, 0, 0, 0, 0, 0, 0, 0⟩, none, none,
      ⟨"GPU", 0, 0, 0, -1000, false, false, false⟩, none,
      some [ProcEntry.mk 2 ['a'] 300 100 1 1, ProcEntry.mk 9 ['b'] 0 0 1 1]⟩
    [ProcessInfo.mk 2 ['a'] 100 4096 1, ProcessInfo.mk 9 ['b'] 0 4096 1]
    (by norm_num [sample, read_cpu_times, totalDelta, cpuTotal, sortProcs,
      List.insertionSort, List.orderedInsert, toProc, procCpuPercent,
      prevTicksFor, pidLookup, entryTicks, sub64, U64, passFilter,
      CpuTimes.zero, procLe, compare_procs])
  exact h

-- ===================== C5 =====================

/-- C5, counterexample: when the `/proc` directory cannot be opened,
`sample` returns early (main.c:821-823) without writing `*out_procs` and
`*out_count`: the result carries no process list, so `sample` does not
produce a complete result on every call. -/
theorem sample_missing_procdir_counterexample :
    (sample ⟨CpuTimes.zero, [], [], 4096⟩ .SORT_CPU [] 1
      ⟨none, none, none, ⟨"GPU", 0, 0, 0, -1000, false, false, false⟩,
        none, none⟩).1.procs = none := rfl

/-- C5 (amended): each individual reader failing yields a zero/sentinel
value (`read_cpu_times`, `read_memory`, `read_network`, `read_cpu_count`
are total with explicit defaults), and `sample` always produces the CPU
percent, memory, network, GPU and CPU-count components; but the process
list and count are produced exactly when the `/proc` directory
enumeration is available — when it is not, `sample` returns early and
leaves them unset. -/
theorem sample_reader_failure_totality (s : Sampler) (sort : SortMode)
    (filter : List Char) (elapsed : ℚ) (env : Env) :
    read_cpu_times none = CpuTimes.zero ∧
    read_memory none = MemorySnapshot.zero ∧
    (read_network s.prev_net elapsed none).1 = NetworkSnapshot.init ∧
    read_cpu_count none = 1 ∧
    ((sample s sort filter elapsed env).1.procs.isSome ↔ env.procs.isSome) := by
  refine ⟨rfl, rfl, rfl, rfl, ?_⟩
  cases henv : env.procs <;> simp [sample, henv]

theorem sample_reader_failure_totality_witness :
    read_cpu_times none = CpuTimes.zero ∧
    read_memory none = MemorySnapshot.zero ∧
    (read_network ([] : List NetStats) 1 none).1 = NetworkSnapshot.init ∧
    read_cpu_count none = 1 ∧
    ((sample ⟨CpuTimes.zero, [], [], 4096⟩ .SORT_CPU [] 1
      ⟨none, none, none, ⟨"GPU", 0, 0, 0, -1000, false, false, false⟩,
        none, none⟩).1.procs.isSome ↔
      (Env.mk none none none ⟨"GPU", 0, 0, 0, -1000, false, false, false⟩
        none none).procs.isSome) :=
  sample_reader_failure_totality ⟨CpuTimes.zero, [], [], 4096⟩ .SORT_CPU [] 1
    ⟨none, none, none, ⟨"GPU", 0, 0, 0, -1000, false, false, false⟩,
      none, none⟩

-- ===================== C6 =====================

theorem netStep_skip (prevTab : List NetStats) (elapsed : ℚ)
    (acc : NetworkSnapshot × Nat × List NetStats) (e : NetEntry)
    (h : e.iface = "lo" ∨ netSum64 e ≤ acc.2.1) :
    (netStep prevTab elapsed acc e).1 = acc.1 ∧
    (netStep prevTab elapsed acc e).2.1 = acc.2.1 := by
  unfold netStep
  rcases h with h | h
  · simp [h]
  · by_cases hlo : e.iface = "lo"
    · simp [hlo]
    · simp only [beq_iff_eq, hlo, if_false]
      rw [if_neg (by omega)]
      exact ⟨rfl, rfl⟩

theorem netFold_keeps (prevTab : List NetStats) (elapsed : ℚ)
    (l : List NetEntry) (acc : NetworkSnapshot × Nat × List NetStats)
    (h : ∀ e ∈ l, e.iface = "lo" ∨ netSum64 e ≤ acc.2.1) :
    (l.foldl (netStep prevTab elapsed) acc).1 = acc.1 ∧
    (l.foldl (netStep prevTab elapsed) acc).2.1 = acc.2.1 := by
  induction l generalizing acc with
  | nil => exact ⟨rfl, rfl⟩
  | cons e t ih =>
    have hs := netStep_skip prevTab elapsed acc e (h e (List.mem_cons_self e t))
    have iht := ih (netStep prevTab elapsed acc e) (fun x hx => by
      rcases h x (List.mem_cons_of_mem e hx) with hx' | hx'
      · exact Or.inl hx'
      · exact Or.inr (hs.2 ▸ hx'))
    rw [List.foldl_cons]
    exact ⟨iht.1.trans hs.1, iht.2.trans hs.2⟩

theorem netFold_max (prevTab : List NetStats) (elapsed : ℚ)
    (l : List NetEntry) (acc : NetworkSnapshot × Nat × List NetStats)
    (e0 : NetEntry) (he0 : e0 ∈ l) (hlo : e0.iface ≠ "lo")
    (hgt : acc.2.1 < netSum64 e0)
    (hmax : ∀ e ∈ l, e ≠ e0 → e.iface ≠ "lo" →
      netSum64 e < netSum64 e0) :
    (l.foldl (netStep prevTab elapsed) acc).1 =
      ⟨e0.iface, (netRates prevTab elapsed e0).1,
        (netRates prevTab elapsed e0).2⟩ := by
  induction l generalizing acc with
  | nil => cases he0
  | cons e t ih =>
    rw [List.foldl_cons]
    by_cases heq : e = e0
    · subst heq
      have hstep : netStep prevTab elapsed acc e =
          (⟨e.iface, (netRates prevTab elapsed e).1,
            (netRates prevTab elapsed e).2⟩, netSum64 e,
            acc.2.2 ++ [⟨e.iface, e.rx, e.tx⟩]) := by
        unfold netStep
        simp only [beq_iff_eq, hlo, if_false]
        rw [if_pos hgt]
      rw [hstep]
      exact (netFold_keeps prevTab elapsed t _ (fun x hx => by
        by_cases hxe : x = e
        · subst hxe; exact Or.inr (le_refl _)
        · by_cases hxlo : x.iface = "lo"
          · exact Or.inl hxlo
          · exact Or.inr (le_of_lt
              (hmax x (List.mem_cons_of_mem e hx) hxe hxlo)))).1
    · have he0t : e0 ∈ t := by
        rcases List.mem_cons.mp he0 with h | h
        · exact absurd h.symm heq
        · exact h
      have hacc2 : (netStep prevTab elapsed acc e).2.1 < netSum64 e0 := by
        by_cases hloE : e.iface = "lo"
        · have h1 : netStep prevTab elapsed acc e = acc := by
            unfold netStep; simp [hloE]
          rw [h1]; exact hgt
        · have hlt := hmax e (List.mem_cons_self e t) heq hloE
          unfold netStep
          simp only [beq_iff_eq, hloE, if_false]
          by_cases hgt2 : netSum64 e > acc.2.1
          · rw [if_pos hgt2]; exact hlt
          · rw [if_neg hgt2]; exact hgt
      exact ih (netStep prevTab elapsed acc e) he0t hacc2
        (fun x hx hxe hxlo => hmax x (List.mem_cons_of_mem e hx) hxe hxlo)

theorem netFold_filter_lo (prevTab : List NetStats) (elapsed : ℚ)
    (l : List NetEntry) (acc : NetworkSnapshot × Nat × List NetStats) :
    l.foldl (netStep prevTab elapsed) acc =
      (l.filter (fun e => !(e.iface == "lo"))).foldl
        (netStep prevTab elapsed) acc := by
  induction l generalizing acc with
  | nil => rfl
  | cons e t ih =>
    by_cases hlo : e.iface = "lo"
    · have h1 : netStep prevTab elapsed acc e = acc := by
        unfold netStep; simp [hlo]
      rw [List.foldl_cons, h1, List.filter_cons,
        if_neg (by simp [hlo])]
      exact ih acc
    · rw [List.foldl_cons, List.filter_cons, if_pos (by simp [hlo]),
        List.foldl_cons]
      exact ih _

/-- C6, counterexample: the cumulative `rx + tx` is computed in u64
arithmetic (main.c:774).  At interfaces `a = (rx 2^63, tx 2^63)` and
`b = (rx 1, tx 0)` — both non-lo — `a` has the strictly greatest
cumulative `rx + tx` (`2^64 > 1`), but its sum wraps to `0`, so the loop
keeps `best_total = 0` past `a` and then selects `b`: the returned
snapshot is not the interface with the greatest cumulative `rx + tx`. -/
theorem read_network_wrap_counterexample :
    (1 : Nat) + 0 < 2 ^ 63 + 2 ^ 63 ∧
    netSum64 ⟨"a", 2 ^ 63, 2 ^ 63⟩ = 0 ∧
    netSum64 ⟨"b", 1, 0⟩ = 1 ∧
    (read_network [] 1
      (some [⟨"a", 2 ^ 63, 2 ^ 63⟩, ⟨"b", 1, 0⟩])).1.iface = "b" ∧
    ("b" : String) ≠ "a" := by
  refine ⟨by decide, by decide, by decide, by decide, by decide⟩

/-- C6 (amended): `read_network` ignores interface `lo` entirely; an
interface absent from the previous-sample table gets prior counters equal
to the current ones, so both rates are `0` on first sight; rates are
never negative (a counter reset clamps the delta to `0`); and the
interface selection compares the u64-wrapped sum `(rx + tx) mod 2^64`,
not the true cumulative sum: when one non-lo interface has the strictly
greatest positive *wrapped* sum, the returned snapshot is that interface
with its computed rates (when every wrapped sum is `0` the `"-"` sentinel
is kept, and exact ties keep the first). -/
theorem read_network_spec (prevTab : List NetStats) (elapsed : ℚ)
    (lines : List NetEntry) (hel : 0 < elapsed) :
    (read_network prevTab elapsed (some lines) =
      read_network prevTab elapsed
        (some (lines.filter (fun e => !(e.iface == "lo"))))) ∧
    (∀ e : NetEntry, (∀ p ∈ prevTab, p.iface ≠ e.iface) →
      netRates prevTab elapsed e = (0, 0)) ∧
    (∀ e : NetEntry, 0 ≤ (netRates prevTab elapsed e).1 ∧
      0 ≤ (netRates prevTab elapsed e).2) ∧
    (∀ e0 ∈ lines, e0.iface ≠ "lo" → 0 < netSum64 e0 →
      (∀ e ∈ lines, e ≠ e0 → e.iface ≠ "lo" →
        netSum64 e < netSum64 e0) →
      (read_network prevTab elapsed (some lines)).1 =
        ⟨e0.iface, (netRates prevTab elapsed e0).1,
          (netRates prevTab elapsed e0).2⟩) := by
  refine ⟨?_, ?_, ?_, ?_⟩
  · simp only [read_network]
    rw [netFold_filter_lo]
  · intro e habs
    have hfind : prevTab.find? (fun p => p.iface == e.iface) = none := by
      rw [List.find?_eq_none]
      intro p hp
      simp [beq_iff_eq]
      exact habs p hp
    unfold netRates netPrevFor
    rw [hfind]
    norm_num
  · intro e
    unfold netRates
    constructor
    · apply div_nonneg _ hel.le
      split
      · positivity
      · exact le_refl 0
    · apply div_nonneg _ hel.le
      split
      · positivity
      · exact le_refl 0
  · intro e0 he0 hlo hpos hmax
    simp only [read_network]
    exact netFold_max prevTab elapsed lines _ e0 he0 hlo hpos hmax

theorem read_network_spec_witness :
    (0 : ℚ) < 1 ∧
    (read_network [⟨"eth0", 1000000, 0⟩] 1
        (some [⟨"eth0", 2024000, 0⟩])).1 = ⟨"eth0", 1024000, 0⟩ := by
  refine ⟨by norm_num, ?_⟩
  have h := (read_network_spec [⟨"eth0", 1000000, 0⟩] 1
    [⟨"eth0", 2024000, 0⟩] (by norm_num)).2.2.2
    ⟨"eth0", 2024000, 0⟩ (by simp) (by simp) (by decide)
    (by intro e he hne hlo; simp at he; exact absurd he hne)
  rw [h]
  norm_num [netRates, netPrevFor, List.find?]

-- ===================== C9 =====================

/-- C9: `human_bytes` divides by 1024 with exactly these thresholds:
`>= 2 ^ 30` formats as GiB with two decimals, `[2 ^ 20, 2 ^ 30)` as MiB
with one decimal, `[2 ^ 10, 2 ^ 20)` as KiB with one decimal, below that
as plain bytes; `1024` renders as `"1.0 KiB"`, `1024 * 1024 - 1` still
uses the KiB format (rendering as `"1024.0 KiB"`), and `1024 * 1024`
renders as `"1.0 MiB"`. -/
theorem human_bytes_thresholds :
    (∀ b : Nat, 2 ^ 30 ≤ b → human_bytes b = fmt2N b (2 ^ 30) ++ " GiB") ∧
    (∀ b : Nat, 2 ^ 20 ≤ b → b < 2 ^ 30 →
      human_bytes b = fmt1N b (2 ^ 20) ++ " MiB") ∧
    (∀ b : Nat, 2 ^ 10 ≤ b → b < 2 ^ 20 →
      human_bytes b = fmt1N b (2 ^ 10) ++ " KiB") ∧
    (∀ b : Nat, b < 2 ^ 10 → human_bytes b = Nat.repr b ++ " B") ∧
    human_bytes 1024 = "1.0 KiB" ∧
    human_bytes (1024 * 1024 - 1) = "1024.0 KiB" ∧
    human_bytes (1024 * 1024) = "1.0 MiB" := by
  have e3 : (2 : Nat) ^ 30 = 1024 * 1024 * 1024 := by norm_num
  have e2 : (2 : Nat) ^ 20 = 1024 * 1024 := by norm_num
  have e1 : (2 : Nat) ^ 10 = 1024 := by norm_num
  refine ⟨?_, ?_, ?_, ?_, by decide, by decide, by decide⟩
  · intro b hb
    rw [e3] at hb ⊢
    unfold human_bytes
    rw [if_pos hb]
  · intro b hb hb2
    rw [e2] at hb ⊢
    rw [e3] at hb2
    unfold human_bytes
    rw [if_neg (by omega), if_pos hb]
  · intro b hb hb2
    rw [e1] at hb ⊢
    rw [e2] at hb2
    unfold human_bytes
    rw [if_neg (by omega), if_neg (by omega), if_pos hb]
  · intro b hb
    rw [e1] at hb
    unfold human_bytes
    rw [if_neg (by omega), if_neg (by omega), if_neg (by omega)]

theorem human_bytes_thresholds_witness :
    ((2 : Nat) ^ 30 ≤ 2 ^ 31 ∧
      human_bytes (2 ^ 31) = fmt2N (2 ^ 31) (2 ^ 30) ++ " GiB") ∧
    ((2 : Nat) ^ 20 ≤ 3000000 ∧ 3000000 < 2 ^ 30 ∧
      human_bytes 3000000 = fmt1N 3000000 (2 ^ 20) ++ " MiB") ∧
    ((2 : Nat) ^ 10 ≤ 2048 ∧ 2048 < 2 ^ 20 ∧
      human_bytes 2048 = fmt1N 2048 (2 ^ 10) ++ " KiB") ∧
    (500 < 2 ^ 10 ∧ human_bytes 500 = Nat.repr 500 ++ " B") :=
  ⟨⟨by norm_num, human_bytes_thresholds.1 _ (by norm_num)⟩,
   ⟨by norm_num, by norm_num,
     human_bytes_thresholds.2.1 _ (by norm_num) (by norm_num)⟩,
   ⟨by norm_num, by norm_num,
     human_bytes_thresholds.2.2.1 _ (by norm_num) (by norm_num)⟩,
   ⟨by norm_num, human_bytes_thresholds.2.2.2.1 _ (by norm_num)⟩⟩

-- ===================== C10 =====================

/-- C10: in SEARCH mode the printable character `q` does not quit: it is
appended to the filter when the filter is shorter than 63 bytes; the byte
`0x03` is classified as Quit by `read_key` regardless of any following
bytes, and it is the only key that exits the program from SEARCH mode,
doing so with exit code 0 after restoring the terminal. -/
theorem search_mode_quit_semantics (st : UiState) (h : st.is_search = true) :
    (∀ rest : List Nat, read_key (3 :: rest) = ⟨.K_QUIT, Char.ofNat 0⟩) ∧
    read_key [113] = ⟨.K_CHAR, 'q'⟩ ∧
    (st.filter.length < 63 →
      dispatchKey st (read_key [113]) =
        .cont { st with filter := st.filter ++ ['q'], selection := 0,
                        needs_sample := true }) ∧
    (∀ k : Key, ∀ code : Nat, ∀ restored : Bool,
      dispatchKey st k = .exit code restored →
      k.type = .K_QUIT ∧ code = 0 ∧ restored = true) := by
  refine ⟨fun rest => rfl, by decide, ?_, ?_⟩
  · intro hlen
    have hq : read_key [113] = ⟨.K_CHAR, 'q'⟩ := by decide
    rw [hq]
    unfold dispatchKey
    rw [if_neg (by decide), if_pos h, if_neg (by decide), if_neg (by decide),
      if_pos rfl, if_pos hlen]
  · intro k code restored hd
    by_cases hq : k.type = .K_QUIT
    · unfold dispatchKey at hd
      rw [if_pos hq] at hd
      cases hd
      exact ⟨hq, rfl, rfl⟩
    · exfalso
      unfold dispatchKey at hd
      rw [if_neg hq, if_pos h] at hd
      split_ifs at hd

theorem search_mode_quit_semantics_witness :
    (UiState.mk true ['a'] 0 .SORT_CPU false false).is_search = true ∧
    read_key [3, 113, 120] = ⟨.K_QUIT, Char.ofNat 0⟩ ∧
    dispatchKey (UiState.mk true ['a'] 0 .SORT_CPU false false)
        (read_key [113]) =
      .cont (UiState.mk true ['a', 'q'] 0 .SORT_CPU true false) := by
  have h := search_mode_quit_semantics
    (UiState.mk true ['a'] 0 .SORT_CPU false false) rfl
  exact ⟨rfl, h.1 [113, 120], h.2.2.1 (by decide)⟩

-- ===================== C7 and C8 =====================


theorem v3dUpdate_length (l : List V3dStats) (q : String) (ts rt : Nat) :
    (v3dUpdate l q ts rt).length = l.length := by
  induction l with
  | nil => rfl
  | cons e t ih =>
    unfold v3dUpdate
    split
    · rfl
    · simp [ih]

theorem v3dLookup_update_ne (l : List V3dStats) (q q' : String) (ts rt : Nat)
    (h : q' ≠ q) :
    v3dLookup (v3dUpdate l q ts rt) q' = v3dLookup l q' := by
  induction l with
  | nil => rfl
  | cons e t ih =>
    by_cases he : e.queue = q
    · have hne : e.queue ≠ q' := by rw [he]; exact fun hx => h hx.symm
      unfold v3dUpdate
      rw [if_pos (by simp [he])]
      unfold v3dLookup
      rw [List.find?_cons_of_neg _ (by simp [hne]),
        List.find?_cons_of_neg _ (by simp [hne])]
    · unfold v3dUpdate
      rw [if_neg (by simp [he])]
      by_cases he' : e.queue = q'
      · unfold v3dLookup
        rw [List.find?_cons_of_pos _ (by simp [he']),
          List.find?_cons_of_pos _ (by simp [he'])]
      · unfold v3dLookup
        rw [List.find?_cons_of_neg _ (by simp [he']),
          List.find?_cons_of_neg _ (by simp [he'])]
        exact ih

theorem v3dLookup_update_self (l : List V3dStats) (q : String) (ts rt : Nat)
    (e : V3dStats) (h : v3dLookup l q = some e) :
    v3dLookup (v3dUpdate l q ts rt) q = some ⟨e.queue, ts, rt⟩ := by
  induction l with
  | nil => cases h
  | cons x t ih =>
    by_cases hx : x.queue = q
    · have hxe : x = e := by
        unfold v3dLookup at h
        rw [List.find?_cons_of_pos _ (by simp [hx])] at h
        exact Option.some_inj.mp h
      subst hxe
      unfold v3dUpdate
      rw [if_pos (by simp [hx])]
      unfold v3dLookup
      rw [List.find?_cons_of_pos _ (by simp [hx])]
    · unfold v3dLookup at h
      rw [List.find?_cons_of_neg _ (by simp [hx])] at h
      unfold v3dUpdate
      rw [if_neg (by simp [hx])]
      unfold v3dLookup
      rw [List.find?_cons_of_neg _ (by simp [hx])]
      exact ih h

theorem v3dLookup_append_ne (l : List V3dStats) (x : V3dStats) (q' : String)
    (h : x.queue ≠ q') :
    v3dLookup (l ++ [x]) q' = v3dLookup l q' := by
  induction l with
  | nil =>
    unfold v3dLookup
    rw [List.nil_append, List.find?_cons_of_neg _ (by simp [h])]
  | cons e t ih =>
    by_cases he : e.queue = q'
    · unfold v3dLookup
      rw [List.cons_append, List.find?_cons_of_pos _ (by simp [he]),
        List.find?_cons_of_pos _ (by simp [he])]
    · unfold v3dLookup
      rw [List.cons_append, List.find?_cons_of_neg _ (by simp [he]),
        List.find?_cons_of_neg _ (by simp [he])]
      exact ih

theorem v3dStep_eq_none (acc : V3dAcc) (r : V3dRow)
    (hl : v3dLookup acc.stats r.queue = none) :
    v3dStep acc r = if acc.stats.length < 16 then
      { acc with stats := acc.stats ++ [⟨r.queue, r.ts, r.rt⟩] }
    else acc := by
  unfold v3dStep
  rw [hl]

theorem v3dStep_eq_found (acc : V3dAcc) (r : V3dRow) (e : V3dStats)
    (hl : v3dLookup acc.stats r.queue = some e) :
    v3dStep acc r = if e.last_ts < r.ts then
      { stats := v3dUpdate acc.stats r.queue r.ts r.rt
        usage := if acc.usage <
            ((sub64 r.rt e.last_rt : Nat) : ℚ) * 100 /
              ((r.ts - e.last_ts : Nat) : ℚ) then
            ((sub64 r.rt e.last_rt : Nat) : ℚ) * 100 /
              ((r.ts - e.last_ts : Nat) : ℚ)
          else acc.usage
        has_usage := true }
    else { acc with stats := v3dUpdate acc.stats r.queue r.ts r.rt } := by
  unfold v3dStep
  rw [hl]

theorem v3dStep_lookup_ne (acc : V3dAcc) (r : V3dRow) (q' : String)
    (h : r.queue ≠ q') :
    v3dLookup (v3dStep acc r).stats q' = v3dLookup acc.stats q' := by
  cases hl : v3dLookup acc.stats r.queue with
  | none =>
    rw [v3dStep_eq_none acc r hl]
    split
    · exact v3dLookup_append_ne _ _ _ h
    · rfl
  | some e =>
    rw [v3dStep_eq_found acc r e hl]
    split
    · exact v3dLookup_update_ne _ _ _ _ _ (Ne.symm h)
    · exact v3dLookup_update_ne _ _ _ _ _ (Ne.symm h)

theorem v3dStep_length (acc : V3dAcc) (r : V3dRow)
    (h : acc.stats.length ≤ 16) :
    (v3dStep acc r).stats.length ≤ 16 := by
  cases hl : v3dLookup acc.stats r.queue with
  | none =>
    rw [v3dStep_eq_none acc r hl]
    split
    · next hlen => simp only [List.length_append, List.length_singleton]; omega
    · exact h
  | some e =>
    rw [v3dStep_eq_found acc r e hl]
    split
    · simpa [v3dUpdate_length] using h
    · simpa [v3dUpdate_length] using h



theorem utilOfRow_eq_none (st : List V3dStats) (r : V3dRow)
    (h : v3dLookup st r.queue = none) : utilOfRow st r = none := by
  unfold utilOfRow
  rw [h]

theorem utilOfRow_eq_found (st : List V3dStats) (r : V3dRow) (e : V3dStats)
    (h : v3dLookup st r.queue = some e) :
    utilOfRow st r = if e.last_ts < r.ts then
      some (((sub64 r.rt e.last_rt : Nat) : ℚ) * 100 /
        ((r.ts - e.last_ts : Nat) : ℚ))
    else none := by
  unfold utilOfRow
  rw [h]

theorem ite_lt_eq_max (a b : ℚ) : (if a < b then b else a) = max a b := by
  rcases le_or_lt b a with h | h
  · rw [if_neg (not_lt.mpr h), max_eq_left h]
  · rw [if_pos h, max_eq_right h.le]

theorem v3dFold_lookup_ne (rows : List V3dRow) (acc : V3dAcc) (q' : String)
    (h : ∀ r ∈ rows, r.queue ≠ q') :
    v3dLookup (v3dProcess acc rows).stats q' = v3dLookup acc.stats q' := by
  induction rows generalizing acc with
  | nil => rfl
  | cons r t ih =>
    unfold v3dProcess at *
    rw [List.foldl_cons]
    exact (ih (v3dStep acc r) (fun x hx => h x (List.mem_cons_of_mem r hx))).trans
      (v3dStep_lookup_ne acc r q' (h r (List.mem_cons_self r t)))

theorem v3dFold_length (rows : List V3dRow) (acc : V3dAcc)
    (h : acc.stats.length ≤ 16) :
    (v3dProcess acc rows).stats.length ≤ 16 := by
  induction rows generalizing acc with
  | nil => exact h
  | cons r t ih =>
    unfold v3dProcess at *
    rw [List.foldl_cons]
    exact ih _ (v3dStep_length acc r h)

theorem v3dFold_usage (st : List V3dStats) (rows : List V3dRow) (acc : V3dAcc)
    (hagree : ∀ r ∈ rows, v3dLookup acc.stats r.queue = v3dLookup st r.queue)
    (hnd : (rows.map V3dRow.queue).Nodup) :
    (v3dProcess acc rows).usage =
      (rows.filterMap (utilOfRow st)).foldl max acc.usage := by
  induction rows generalizing acc with
  | nil => rfl
  | cons r t ih =>
    have hr := hagree r (List.mem_cons_self r t)
    rw [List.map_cons, List.nodup_cons] at hnd
    have hagree' : ∀ x ∈ t, v3dLookup (v3dStep acc r).stats x.queue =
        v3dLookup st x.queue := by
      intro x hx
      have hne : r.queue ≠ x.queue := fun he =>
        hnd.1 (he ▸ List.mem_map_of_mem V3dRow.queue hx)
      rw [v3dStep_lookup_ne acc r x.queue hne]
      exact hagree x (List.mem_cons_of_mem r hx)
    unfold v3dProcess at *
    rw [List.foldl_cons]
    cases hst : v3dLookup st r.queue with
    | none =>
      have hacc : v3dLookup acc.stats r.queue = none := hr.trans hst
      have hu : (v3dStep acc r).usage = acc.usage := by
        rw [v3dStep_eq_none acc r hacc]
        split <;> rfl
      have hutil : utilOfRow st r = none := utilOfRow_eq_none st r hst
      rw [ih (v3dStep acc r) hagree' hnd.2, hu, List.filterMap_cons, hutil]
    | some e =>
      have hacc : v3dLookup acc.stats r.queue = some e := hr.trans hst
      by_cases hts : e.last_ts < r.ts
      · have hu : (v3dStep acc r).usage = max acc.usage
            (((sub64 r.rt e.last_rt : Nat) : ℚ) * 100 /
              ((r.ts - e.last_ts : Nat) : ℚ)) := by
          rw [v3dStep_eq_found acc r e hacc, if_pos hts]
          exact ite_lt_eq_max _ _
        have hutil : utilOfRow st r = some
            (((sub64 r.rt e.last_rt : Nat) : ℚ) * 100 /
              ((r.ts - e.last_ts : Nat) : ℚ)) := by
          rw [utilOfRow_eq_found st r e hst, if_pos hts]
        rw [ih (v3dStep acc r) hagree' hnd.2, hu, List.filterMap_cons, hutil,
          List.foldl_cons]
      · have hu : (v3dStep acc r).usage = acc.usage := by
          rw [v3dStep_eq_found acc r e hacc, if_neg hts]
        have hutil : utilOfRow st r = none := by
          rw [utilOfRow_eq_found st r e hst, if_neg hts]
        rw [ih (v3dStep acc r) hagree' hnd.2, hu, List.filterMap_cons, hutil]

theorem v3dFold_retains (st : List V3dStats) (rows : List V3dRow) (acc : V3dAcc)
    (hagree : ∀ r ∈ rows, v3dLookup acc.stats r.queue = v3dLookup st r.queue)
    (hnd : (rows.map V3dRow.queue).Nodup) :
    ∀ r ∈ rows, ∀ e, v3dLookup st r.queue = some e →
      v3dLookup (v3dProcess acc rows).stats r.queue =
        some ⟨e.queue, r.ts, r.rt⟩ := by
  induction rows generalizing acc with
  | nil => intro r hr; cases hr
  | cons r0 t ih =>
    intro r hr e he
    rw [List.map_cons, List.nodup_cons] at hnd
    have hagree' : ∀ x ∈ t, v3dLookup (v3dStep acc r0).stats x.queue =
        v3dLookup st x.queue := by
      intro x hx
      have hne : r0.queue ≠ x.queue := fun heq =>
        hnd.1 (heq ▸ List.mem_map_of_mem V3dRow.queue hx)
      rw [v3dStep_lookup_ne acc r0 x.queue hne]
      exact hagree x (List.mem_cons_of_mem r0 hx)
    rcases List.mem_cons.mp hr with hr0 | hrt
    · subst hr0
      have hacc : v3dLookup acc.stats r.queue = some e :=
        (hagree r (List.mem_cons_self r t)).trans he
      have hstats : v3dLookup (v3dStep acc r).stats r.queue =
          some ⟨e.queue, r.ts, r.rt⟩ := by
        rw [v3dStep_eq_found acc r e hacc]
        split
        · exact v3dLookup_update_self _ _ _ _ _ hacc
        · exact v3dLookup_update_self _ _ _ _ _ hacc
      have hfix : v3dLookup (v3dProcess (v3dStep acc r) t).stats r.queue =
          v3dLookup (v3dStep acc r).stats r.queue :=
        v3dFold_lookup_ne t (v3dStep acc r) r.queue (fun x hx heq =>
          hnd.1 (heq ▸ List.mem_map_of_mem V3dRow.queue hx))
      unfold v3dProcess at *
      rw [List.foldl_cons]
      exact hfix.trans hstats
    · unfold v3dProcess at *
      rw [List.foldl_cons]
      exact ih (v3dStep acc r0) hagree' hnd.2 r hrt e he



/-- C7: in the V3D path, for each queue row whose queue is already in the
table and whose timestamp advanced, the per-queue utilization is
`(runtime_delta * 100) / timestamp_delta`; the usage accumulated over one
probe is the maximum of those utilizations (starting from the snapshot's
initial `0`); each seen queue's `(last_ts, last_rt)` pair is replaced by
the row's values for the next probe; and the table never exceeds 16
entries.  Rows carry pairwise distinct queue names, as in a real
`gpu_stats` file. -/
theorem v3dProcess_spec (st : List V3dStats) (rows : List V3dRow)
    (hnd : (rows.map V3dRow.queue).Nodup) (hlen : st.length ≤ 16) :
    (v3dProcess ⟨st, 0, false⟩ rows).stats.length ≤ 16 ∧
    (v3dProcess ⟨st, 0, false⟩ rows).usage =
      (rows.filterMap (utilOfRow st)).foldl max 0 ∧
    (∀ r ∈ rows, ∀ e, v3dLookup st r.queue = some e →
      v3dLookup (v3dProcess ⟨st, 0, false⟩ rows).stats r.queue =
        some ⟨e.queue, r.ts, r.rt⟩) ∧
    (∀ r : V3dRow, ∀ e, v3dLookup st r.queue = some e → e.last_ts < r.ts →
      utilOfRow st r =
        some (((sub64 r.rt e.last_rt : Nat) : ℚ) * 100 /
          ((r.ts - e.last_ts : Nat) : ℚ))) := by
  refine ⟨v3dFold_length rows _ hlen,
    v3dFold_usage st rows _ (fun r _ => rfl) hnd,
    v3dFold_retains st rows _ (fun r _ => rfl) hnd, ?_⟩
  intro r e he hts
  rw [utilOfRow_eq_found st r e he, if_pos hts]

theorem v3dProcess_spec_witness :
    (([⟨"bin", 2000000000, 1000000000⟩] : List V3dRow).map V3dRow.queue).Nodup ∧
    ([⟨"bin", 1000000000, 500000000⟩] : List V3dStats).length ≤ 16 ∧
    (v3dProcess ⟨[⟨"bin", 1000000000, 500000000⟩], 0, false⟩
      [⟨"bin", 2000000000, 1000000000⟩]).usage = 50 ∧
    v3dLookup (v3dProcess ⟨[⟨"bin", 1000000000, 500000000⟩], 0, false⟩
      [⟨"bin", 2000000000, 1000000000⟩]).stats "bin" =
      some ⟨"bin", 2000000000, 1000000000⟩ := by
  have h := v3dProcess_spec [⟨"bin", 1000000000, 500000000⟩]
    [⟨"bin", 2000000000, 1000000000⟩] (by simp) (by simp)
  refine ⟨by simp, by simp, ?_, ?_⟩
  · rw [h.2.1]
    have hu : utilOfRow [⟨"bin", 1000000000, 500000000⟩]
        ⟨"bin", 2000000000, 1000000000⟩ = some 50 := by
      rw [utilOfRow_eq_found [⟨"bin", 1000000000, 500000000⟩]
          ⟨"bin", 2000000000, 1000000000⟩ ⟨"bin", 1000000000, 500000000⟩
          (by decide), if_pos (by norm_num)]
      norm_num [sub64, U64]
    rw [List.filterMap_cons, hu]
    simp [List.foldl]
  · exact h.2.2.1 ⟨"bin", 2000000000, 1000000000⟩ (by simp)
      ⟨"bin", 1000000000, 500000000⟩ rfl

theorem tmodBounds (d : Int) : -999 ≤ Int.tmod d 1000 ∧ Int.tmod d 1000 ≤ 999 := by
  cases d with
  | ofNat m =>
    have h1 : (0 : Int) ≤ Int.tmod (Int.ofNat m) 1000 :=
      Int.tmod_nonneg _ (Int.ofNat_nonneg m)
    have h2 : Int.tmod (Int.ofNat m) 1000 < 1000 :=
      Int.tmod_lt_of_pos _ (by norm_num)
    omega
  | negSucc m =>
    have he : Int.tmod (Int.negSucc m) 1000 = -((m.succ % 1000 : Nat) : Int) := rfl
    have hlt : m.succ % 1000 < 1000 := Nat.mod_lt _ (by norm_num)
    rw [he]
    omega

theorem tdivBounds (d : Int) :
    1000 * (Int.tdiv d 1000) ≤ d + 999 ∧ d - 999 ≤ 1000 * (Int.tdiv d 1000) := by
  have h := Int.tmod_add_tdiv d 1000
  have hb := tmodBounds d
  omega

/-- C8 (amended): after a first call that runs the probe cascade, a
second `read_gpu` call at most 799 ms later (true time-of-day difference
at most 799000 microseconds) takes the cache: it returns exactly the
snapshot the first call returned, leaves the cache untouched and consults
no backend.  The code compares a *truncated* integer millisecond
difference against 800, so 799 ms is the exact guaranteed bound — a true
difference strictly between 799 and 800 ms can re-probe
(see the counterexample). -/
theorem read_gpu_cache_hit (st0 : GpuCache) (t1 t2 : Timeval)
    (p1 p2 : GpuSnapshot)
    (hprobe : ¬ (msDiff t1 st0.last < 800 ∧ st0.last.sec ≠ 0))
    (hsec : t1.sec ≠ 0)
    (h0 : 0 ≤ usDiff t2 t1) (h799 : usDiff t2 t1 ≤ 799000) :
    read_gpu_cached (read_gpu_cached st0 t1 p1).2.1 t2 p2 =
      ((read_gpu_cached st0 t1 p1).1,
        (read_gpu_cached st0 t1 p1).2.1, false) := by
  have h1 : read_gpu_cached st0 t1 p1 = (p1, ⟨p1, t1⟩, true) := by
    unfold read_gpu_cached
    rw [if_neg hprobe]
  rw [h1]
  unfold read_gpu_cached
  rw [if_pos ?hc]
  case hc =>
    refine ⟨?_, hsec⟩
    show msDiff t2 t1 < 800
    unfold usDiff at h0 h799
    unfold msDiff
    have hd := tdivBounds (t2.usec - t1.usec)
    omega

/-- C8, counterexample: the two calls below are 799999 microseconds
apart — strictly less than 800 ms — after the first probe has run, yet
the second call runs the probe cascade again (`true` flag) and returns
the new probe's snapshot, whose `name` differs from the cached one:
`ms_diff` is computed with truncated division as
`(2-1)*1000 + (599999-800000)/1000 = 800`, failing the `< 800` test. -/
theorem read_gpu_cache_truncation_counterexample :
    usDiff ⟨2, 599999⟩ ⟨1, 800000⟩ = 799999 ∧
    read_gpu_cached ⟨⟨"GPU", 0, 0, 0, -1000, false, false, false⟩, ⟨0, 0⟩⟩
        ⟨1, 800000⟩ ⟨"AMD GPU", 10, 0, 0, 0, true, false, false⟩ =
      (⟨"AMD GPU", 10, 0, 0, 0, true, false, false⟩,
        ⟨⟨"AMD GPU", 10, 0, 0, 0, true, false, false⟩, ⟨1, 800000⟩⟩, true) ∧
    read_gpu_cached ⟨⟨"AMD GPU", 10, 0, 0, 0, true, false, false⟩, ⟨1, 800000⟩⟩
        ⟨2, 599999⟩ ⟨"Adreno GPU", 20, 0, 0, 0, true, false, false⟩ =
      (⟨"Adreno GPU", 20, 0, 0, 0, true, false, false⟩,
        ⟨⟨"Adreno GPU", 20, 0, 0, 0, true, false, false⟩, ⟨2, 599999⟩⟩, true) ∧
    ("Adreno GPU" : String) ≠ "AMD GPU" := by
  refine ⟨rfl, ?_, ?_, by decide⟩
  · unfold read_gpu_cached
    rw [if_neg (by decide)]
  · unfold read_gpu_cached
    rw [if_neg (by decide)]

theorem read_gpu_cache_hit_witness :
    (¬ (msDiff ⟨100, 0⟩
        (GpuCache.mk ⟨"GPU", 0, 0, 0, -1000, false, false, false⟩ ⟨0, 0⟩).last <
          800 ∧
      (GpuCache.mk ⟨"GPU", 0, 0, 0, -1000, false, false, false⟩
        ⟨0, 0⟩).last.sec ≠ 0)) ∧
    ((⟨100, 0⟩ : Timeval).sec ≠ 0) ∧
    0 ≤ usDiff ⟨100, 500000⟩ ⟨100, 0⟩ ∧
    usDiff ⟨100, 500000⟩ ⟨100, 0⟩ ≤ 799000 ∧
    read_gpu_cached
        (read_gpu_cached
          (GpuCache.mk ⟨"GPU", 0, 0, 0, -1000, false, false, false⟩ ⟨0, 0⟩)
          ⟨100, 0⟩ ⟨"AMD GPU", 30, 0, 0, 0, true, false, false⟩).2.1
        ⟨100, 500000⟩ ⟨"Adreno GPU", 40, 0, 0, 0, true, false, false⟩ =
      ((read_gpu_cached
          (GpuCache.mk ⟨"GPU", 0, 0, 0, -1000, false, false, false⟩ ⟨0, 0⟩)
          ⟨100, 0⟩ ⟨"AMD GPU", 30, 0, 0, 0, true, false, false⟩).1,
        (read_gpu_cached
          (GpuCache.mk ⟨"GPU", 0, 0, 0, -1000, false, false, false⟩ ⟨0, 0⟩)
          ⟨100, 0⟩ ⟨"AMD GPU", 30, 0, 0, 0, true, false, false⟩).2.1, false) :=
  ⟨by decide, by decide, by decide, by decide,
   read_gpu_cache_hit _ _ _ _ _ (by decide) (by decide) (by decide)
     (by decide)⟩

end Utop
